import Mathlib

/-!
Verification of the MCP gateway and tool-call normalization layer of the
pg-archestra repository (backend route `mcp-gateway`, its session management,
the tool-execution router inside the `CallToolRequestSchema` handler, and the
Anthropic vendor response adapter).

Every definition is a shallow embedding of the corresponding TypeScript
source.  Object identity of protocol-server and transport instances is
modelled with natural-number tokens; JavaScript values are modelled with a
small JSON inductive; the `Map` of active sessions is modelled with an
association list carrying JavaScript `Map` semantics (update in place for an
existing key, append for a new one).
-/

/-! ### JSON values (JavaScript values crossing the router boundary) -/

/-- JSON-like values, modelling the JavaScript values held in tool results,
tool arguments and content blocks. -/
inductive Json where
  | null : Json
  | bool : Bool → Json
  | num : Int → Json
  | str : String → Json
  | arr : List Json → Json
  | obj : List (String × Json) → Json


/-- Escaping of a single character inside a JSON string literal, as done by
`JSON.stringify`. -/
def escapeChar (c : Char) : String :=
  if c = '"' then "\\\""
  else if c = '\\' then "\\\\"
  else if c = '\n' then "\\n"
  else if c = '\r' then "\\r"
  else if c = '\t' then "\\t"
  else String.singleton c

/-- A JSON string literal with quotes, as produced by `JSON.stringify`. -/
def quoteStr (s : String) : String :=
  "\"" ++ String.join (s.data.map escapeChar) ++ "\""

mutual

/-- Serialization of a JSON value, modelling `JSON.stringify`. -/
def Json.stringify : Json → String
  | .null => "null"
  | .bool b => if b then "true" else "false"
  | .num n => toString n
  | .str s => quoteStr s
  | .arr xs => "[" ++ String.intercalate "," (stringifyList xs) ++ "]"
  | .obj fs => "\x7b" ++ String.intercalate "," (stringifyFields fs) ++ "\x7d"

/-- Serialization of the elements of a JSON array. -/
def Json.stringifyList : List Json → List String
  | [] => []
  | x :: xs => Json.stringify x :: Json.stringifyList xs

/-- Serialization of the fields of a JSON object. -/
def Json.stringifyFields : List (String × Json) → List String
  | [] => []
  | (k, v) :: fs => (quoteStr k ++ ":" ++ Json.stringify v) :: Json.stringifyFields fs

end

/-! ### Result-shape normalization (mcp-gateway CallToolRequestSchema handler,
`Array.isArray(result.content) ? result.content : [{type:"text", text:
JSON.stringify(result.content)}]`) -/

/-- `Array.isArray` on a JSON value. -/
def isJsonArray : Json → Bool
  | .arr _ => true
  | _ => false

/-- The single text content block `{type: "text", text: JSON.stringify(v)}`
wrapped around a non-array value. -/
def textBlock (v : Json) : Json :=
  Json.obj [("type", Json.str "text"), ("text", Json.str (Json.stringify v))]

/-- Result-shape normalization of `result.content` in the gateway tool-call
handler: an array passes through unchanged, any other value is wrapped as a
one-element array holding a single text block with its serialization. -/
def normalizeContent (c : Json) : Json :=
  match c with
  | .arr xs => .arr xs
  | .null => .arr [textBlock .null]
  | .bool b => .arr [textBlock (.bool b)]
  | .num n => .arr [textBlock (.num n)]
  | .str s => .arr [textBlock (.str s)]
  | .obj fs => .arr [textBlock (.obj fs)]

/-! ### Canonical tool-call data model (`CommonToolCall`, `CommonToolResult`) -/

/-- `CommonToolCall` from `@/types`: `{id, name, arguments}`. -/
structure CommonToolCall where
  id : String
  name : String
  arguments : Json


/-- `CommonToolResult` as consumed by the gateway from
`mcpClient.executeToolCall`: `{content, isError, error?}`. -/
structure CommonToolResult where
  content : Json
  isError : Bool
  error : Option String


/-- The MCP response shape returned by the `CallToolRequestSchema` handler:
`{content, isError}`. -/
structure McpToolResponse where
  content : Json
  isError : Bool


/-- A JSON-RPC error object `{code, message, data?}` as thrown by the
gateway tool-call handler. -/
structure JsonRpcErrorObj where
  code : Int
  message : String
  data : Option String


/-- Observable execution effects of the tool-call handler: either the
in-process builtin executor ran, or the downstream MCP client was invoked
with a constructed canonical tool call. -/
inductive RouterEffect where
  | builtinExec : String → RouterEffect
  | downstreamExec : CommonToolCall → RouterEffect


/-- `MCP_SERVER_NAME` of the Archestra builtin MCP server. -/
def MCP_SERVER_NAME : String := "archestra"

/-- `MCP_SERVER_TOOL_NAME_SEPARATOR` from `@shared/consts`. -/
def MCP_SERVER_TOOL_NAME_SEPARATOR : String := "__"

/-- The host-builtin namespace test value
`${MCP_SERVER_NAME}${MCP_SERVER_TOOL_NAME_SEPARATOR}`. -/
def archestraToolPrefix : String := MCP_SERVER_NAME ++ MCP_SERVER_TOOL_NAME_SEPARATOR

/-- JavaScript string test `s.startsWith(pre)`. -/
def strStartsWith (s pre : String) : Bool :=
  pre.data.isPrefixOf s.data

/-- JavaScript `s || d` on an optional string: an absent or empty string
falls back to the default. -/
def jsStringOr (s : Option String) (d : String) : String :=
  match s with
  | some e => if e = "" then d else e
  | none => d

/-- The `CallToolRequestSchema` handler of the gateway server, parametrized
by the builtin executor (`executeArchestraTool`, called with the name, the
raw arguments and the acting agent as context) and the downstream client
(`mcpClient.executeToolCall`).  `genCallId` stands for the generated
`mcp-call-...-...` identifier.  The second component is the trace of
execution effects. -/
def callToolHandler
    (executeArchestraTool : String → Option Json → String → McpToolResponse)
    (mcpExecuteToolCall : CommonToolCall → String → CommonToolResult)
    (agentId genCallId name : String) (args : Option Json) :
    Except JsonRpcErrorObj McpToolResponse × List RouterEffect :=
  if strStartsWith name archestraToolPrefix then
    (Except.ok (executeArchestraTool name args agentId), [RouterEffect.builtinExec name])
  else
    let toolCall : CommonToolCall :=
      { id := genCallId, name := name, arguments := args.getD (Json.obj []) }
    let result := mcpExecuteToolCall toolCall agentId
    if result.isError then
      (Except.error
        { code := -32603,
          message := jsStringOr result.error "Tool execution failed",
          data := none },
        [RouterEffect.downstreamExec toolCall])
    else
      (Except.ok { content := normalizeContent result.content, isError := false },
        [RouterEffect.downstreamExec toolCall])

/-! ### Anthropic vendor response adapter -/

/-- Content block of an Anthropic messages response: either a text block or a
tool-invocation (`tool_use`) block `{type:"tool_use", id, name, input}`. A
missing input is modelled as `none`. -/
inductive AnthropicContentBlock where
  | text : String → AnthropicContentBlock
  | toolUse : String → String → Option Json → AnthropicContentBlock

/-- Whether a content block is a `tool_use` block. -/
def isToolUseBlock : AnthropicContentBlock → Bool
  | .toolUse _ _ _ => true
  | _ => false

/-- Modelled from the spec: the Anthropic response adapter
(`src/platform/backend/src/routes/proxy/adapterV2/anthropic.ts` is not under
`src/`; only its unit tests are).  Per spec section 4.4 and the tests,
`getToolCalls` scans the content blocks of the vendor response for tool-use
blocks and maps each, preserving block order, to a canonical
`{id, name, arguments}` call, with an absent input mapped to the empty
mapping. -/
def getToolCalls : List AnthropicContentBlock → List CommonToolCall
  | [] => []
  | AnthropicContentBlock.text _ :: rest => getToolCalls rest
  | AnthropicContentBlock.toolUse id name input :: rest =>
      { id := id, name := name, arguments := input.getD (Json.obj []) } :: getToolCalls rest

/-! ### Bearer-token authentication (`extractAgentIdFromAuth`) -/

/-- The ECMAScript `\s` character class (WhiteSpace and LineTerminator
productions) used by the regular expression `/^Bearer\s+(.+)$/i`. -/
def jsWhitespace (c : Char) : Bool :=
  c == '\t' || c == '\n' || c.toNat == 0xB || c.toNat == 0xC || c == '\r' || c == ' ' ||
  c.toNat == 0xA0 || c.toNat == 0x1680 ||
  (0x2000 ≤ c.toNat && c.toNat ≤ 0x200A) ||
  c.toNat == 0x2028 || c.toNat == 0x2029 || c.toNat == 0x202F ||
  c.toNat == 0x205F || c.toNat == 0x3000 || c.toNat == 0xFEFF

/-- The ECMAScript LineTerminator characters, which the `.` atom of the
regular expression never matches. -/
def lineTerminator (c : Char) : Bool :=
  c == '\n' || c == '\r' || c.toNat == 0x2028 || c.toNat == 0x2029

/-- ASCII lower-casing, modelling the `/i` flag on the scheme letters. -/
def asciiLower (c : Char) : Char :=
  if 'A' ≤ c && c ≤ 'Z' then Char.ofNat (c.toNat + 32) else c

/-- Case-insensitive comparison of a character list with the scheme
`bearer`. -/
def bearerCI (cs : List Char) : Bool :=
  decide (cs.map asciiLower = "bearer".data)

/-- The match `header.match(/^Bearer\s+(.+)$/i)`, returning the captured
token.  The scheme is matched case-insensitively, `\s+` greedily consumes
the whitespace run after it, and `(.+)$` captures the rest of the string,
which must be nonempty and contain no line terminator.  When the rest of
the string is all whitespace, the greedy `\s+` backtracks one character, so
the capture becomes the last whitespace character provided it is not a line
terminator and at least one whitespace character remains before it. -/
def matchBearerToken (cs : List Char) : Option (List Char) :=
  if bearerCI (cs.take 6) then
    let rest := cs.drop 6
    let ws := rest.takeWhile jsWhitespace
    let tok := rest.dropWhile jsWhitespace
    if ws = [] then none
    else if tok = [] then
      match ws.getLast? with
      | some c => if 2 ≤ ws.length && !lineTerminator c then some [c] else none
      | none => none
    else if tok.any lineTerminator then none else some tok
  else none

/-- `extractAgentIdFromAuth`: extract and validate the agent identifier from
the `Authorization` header bearer token.  `UuidIdSchema.parse` (from
`@/types`, not under `src/`) is modelled as the abstract validity predicate
`isUuid`. -/
def extractAgentIdFromAuth (isUuid : List Char → Bool)
    (authHeader : Option (List Char)) : Option (List Char) :=
  match authHeader with
  | none => none
  | some h =>
    match matchBearerToken h with
    | none => none
    | some token => if isUuid token then some token else none

/-! ### Session manager state (the `activeSessions` map) -/

/-- `SessionData`: the owned protocol-server instance, the owned transport
instance (both modelled as object-identity tokens) and the last-access
timestamp in milliseconds. -/
structure SessionData where
  server : Nat
  transport : Nat
  lastAccess : Nat
deriving DecidableEq

/-- The `activeSessions` map, modelled as an association list with
JavaScript `Map` semantics: at most one entry per key is ever observed
because `mapSet` updates the first matching entry in place. -/
abbrev SessionMap : Type := List (String × SessionData)

/-- `Map.get` (first matching entry). -/
def mapGet : SessionMap → String → Option SessionData
  | [], _ => none
  | (k, v) :: rest, key => if k = key then some v else mapGet rest key

/-- `Map.has`. -/
def mapHas (m : SessionMap) (key : String) : Bool :=
  (mapGet m key).isSome

/-- `Map.set`: update an existing entry in place, append a new key. -/
def mapSet : SessionMap → String → SessionData → SessionMap
  | [], key, v => [(key, v)]
  | (k, w) :: rest, key, v =>
      if k = key then (key, v) :: rest else (k, w) :: mapSet rest key v

/-- `Map.delete`: remove the entry of a key. -/
def mapDelete : SessionMap → String → SessionMap
  | [], _ => []
  | (k, v) :: rest, key => if k = key then rest else (k, v) :: mapDelete rest key

/-- `SESSION_TIMEOUT_MS`: session timeout (30 minutes). -/
def SESSION_TIMEOUT_MS : Nat := 30 * 60 * 1000

/-- The interval of the periodic `setInterval(cleanupExpiredSessions, ...)`
cadence (5 minutes). -/
def CLEANUP_INTERVAL_MS : Nat := 5 * 60 * 1000

/-- `cleanupExpiredSessions`: collect the identifiers of the sessions whose
last-access age exceeds `SESSION_TIMEOUT_MS`, then delete each of them. -/
def cleanupExpiredSessions (now : Nat) (m : SessionMap) : SessionMap :=
  let expiredSessionIds : List String :=
    (m.filter (fun e => decide (SESSION_TIMEOUT_MS < now - e.2.lastAccess))).map
      (fun e => e.1)
  expiredSessionIds.foldl mapDelete m

/-! ### The POST and GET route handlers of the gateway -/

/-- Observable session-related events of one POST request, in program
order: storing a session in the map and handing the request body to
`transport.handleRequest`. -/
inductive GatewayEvent where
  | sessionStore : String → GatewayEvent
  | transportHandle : GatewayEvent
deriving DecidableEq

/-- Outcome of the POST handler: HTTP status, the JSON-RPC error envelope
fields when an error body is returned, the session map after the request,
the event trace, and the server/transport pair that served the request. -/
structure PostOutcome where
  status : Nat
  errorCode : Option Int
  errorMessage : Option String
  sessions : SessionMap
  events : List GatewayEvent
  usedServer : Option Nat
  usedTransport : Option Nat
deriving DecidableEq

/-- Outcome of the GET discovery handler. -/
structure GetOutcome where
  status : Nat
  error : Option String
  message : Option String
  agentId : Option String
deriving DecidableEq

/-- The initialize branch of the POST handler: a fresh server and transport
are constructed, connected, and stored under the effective session
identifier strictly before `transport.handleRequest` runs. -/
def initializeBranch (effectiveSessionId : String) (now : Nat)
    (freshServer freshTransport : Nat) (st : SessionMap) : PostOutcome :=
  { status := 200, errorCode := none, errorMessage := none,
    sessions := mapSet st effectiveSessionId
      { server := freshServer, transport := freshTransport, lastAccess := now },
    events := [GatewayEvent.sessionStore effectiveSessionId, GatewayEvent.transportHandle],
    usedServer := some freshServer, usedTransport := some freshTransport }

/-- The branch of the POST handler for a non-initialize request without a
valid session: a 400 JSON-RPC error envelope, no session work. -/
def invalidSessionOutcome (st : SessionMap) : PostOutcome :=
  { status := 400, errorCode := some (-32000),
    errorMessage := some "Bad Request: Invalid or expired session",
    sessions := st, events := [], usedServer := none, usedTransport := none }

/-- The POST route handler of `mcpGatewayRoutes`.  `genSid` stands for the
generated `session-<epoch-millis>-<uuid>` identifier used when the client
supplied none, and `freshServer`/`freshTransport` for the object identities
of a newly constructed server/transport pair. -/
def handlePost (isUuid : List Char → Bool) (authHeader : Option (List Char))
    (sessionId : Option String) (method : String) (now : Nat)
    (genSid : String) (freshServer freshTransport : Nat)
    (st : SessionMap) : PostOutcome :=
  match extractAgentIdFromAuth isUuid authHeader with
  | none =>
      { status := 401, errorCode := some (-32000),
        errorMessage := some
          "Unauthorized: Missing or invalid Authorization header. Expected: Bearer <agent-id>",
        sessions := st, events := [], usedServer := none, usedTransport := none }
  | some _agentId =>
      match sessionId with
      | some sid =>
          match mapGet st sid with
          | some sessionData =>
              { status := 200, errorCode := none, errorMessage := none,
                sessions := mapSet st sid
                  { server := sessionData.server, transport := sessionData.transport,
                    lastAccess := now },
                events := [GatewayEvent.transportHandle],
                usedServer := some sessionData.server,
                usedTransport := some sessionData.transport }
          | none =>
              if method = "initialize" then
                initializeBranch sid now freshServer freshTransport st
              else invalidSessionOutcome st
      | none =>
          if method = "initialize" then
            initializeBranch genSid now freshServer freshTransport st
          else invalidSessionOutcome st

/-- The GET discovery route handler of `mcpGatewayRoutes`. -/
def handleGet (isUuid : List Char → Bool)
    (authHeader : Option (List Char)) : GetOutcome :=
  match extractAgentIdFromAuth isUuid authHeader with
  | none =>
      { status := 401, error := some "Unauthorized",
        message := some
          "Missing or invalid Authorization header. Expected: Bearer <agent-id>",
        agentId := none }
  | some a =>
      { status := 200, error := none, message := none,
        agentId := some (String.mk a) }

/-- The inputs of one POST request, for reasoning about request
sequences. -/
structure PostReq where
  authHeader : Option (List Char)
  sessionId : Option String
  method : String
  now : Nat
  genSid : String
  freshServer : Nat
  freshTransport : Nat

/-- The session map left behind by one POST request. -/
def stepPost (isUuid : List Char → Bool) (st : SessionMap) (r : PostReq) : SessionMap :=
  (handlePost isUuid r.authHeader r.sessionId r.method r.now r.genSid
    r.freshServer r.freshTransport st).sessions

/-- The session map left behind by a sequence of POST requests. -/
def runPosts (isUuid : List Char → Bool) (reqs : List PostReq) (st : SessionMap) : SessionMap :=
  reqs.foldl (stepPost isUuid) st

/-! ### Lemmas about the session map operations -/

/-- Keys of the session map. -/
def mapKeys (m : SessionMap) : List String :=
  m.map Prod.fst

theorem mapGet_mapSet_self (m : SessionMap) (k : String) (v : SessionData) :
    mapGet (mapSet m k v) k = some v := by
  induction m with
  | nil => simp [mapSet, mapGet]
  | cons e rest ih =>
      obtain ⟨k', w⟩ := e
      by_cases h : k' = k
      · simp [mapSet, mapGet, h]
      · simp [mapSet, mapGet, h, ih]

theorem mapGet_mapSet_ne (m : SessionMap) (k k' : String) (v : SessionData)
    (h : k' ≠ k) : mapGet (mapSet m k v) k' = mapGet m k' := by
  induction m with
  | nil => simp [mapSet, mapGet, Ne.symm h]
  | cons e rest ih =>
      obtain ⟨k₀, w⟩ := e
      by_cases h0 : k₀ = k
      · subst h0
        simp [mapSet, mapGet, Ne.symm h]
      · by_cases h1 : k₀ = k'
        · simp [mapSet, mapGet, h0, h1, h]
        · simp [mapSet, mapGet, h0, h1, ih]

theorem mapSet_length_of_get_some (m : SessionMap) (k : String) (v w : SessionData)
    (h : mapGet m k = some w) : (mapSet m k v).length = m.length := by
  induction m with
  | nil => simp [mapGet] at h
  | cons e rest ih =>
      obtain ⟨k₀, w₀⟩ := e
      by_cases h0 : k₀ = k
      · simp [mapSet, h0]
      · simp [mapGet, h0] at h
        simp [mapSet, h0, ih h]

theorem mapGet_some_mem (m : SessionMap) (k : String) (v : SessionData)
    (h : mapGet m k = some v) : (k, v) ∈ m := by
  induction m with
  | nil => simp [mapGet] at h
  | cons e rest ih =>
      obtain ⟨k₀, w₀⟩ := e
      by_cases h0 : k₀ = k
      · subst h0
        simp [mapGet] at h
        simp [h]
      · simp [mapGet, h0] at h
        exact List.mem_cons_of_mem _ (ih h)

theorem mapGet_eq_none_iff (m : SessionMap) (k : String) :
    mapGet m k = none ↔ k ∉ mapKeys m := by
  induction m with
  | nil => simp [mapGet, mapKeys]
  | cons e rest ih =>
      obtain ⟨k₀, w₀⟩ := e
      by_cases h0 : k₀ = k
      · subst h0
        simp [mapGet, mapKeys]
      · simp only [mapGet, mapKeys, List.map_cons, List.mem_cons, h0, if_neg h0]
        constructor
        · intro hnone hmem
          rcases hmem with h1 | h1
          · exact h0 h1.symm
          · exact (ih.mp hnone) (by simpa [mapKeys] using h1)
        · intro hmem
          exact ih.mpr (fun hk => hmem (Or.inr (by simpa [mapKeys] using hk)))

theorem mem_mapGet_of_nodup (m : SessionMap) (k : String) (v : SessionData)
    (hnd : (mapKeys m).Nodup) (h : (k, v) ∈ m) : mapGet m k = some v := by
  induction m with
  | nil => simp at h
  | cons e rest ih =>
      obtain ⟨k₀, w₀⟩ := e
      simp only [mapKeys, List.map_cons, List.nodup_cons] at hnd
      rcases List.mem_cons.mp h with h1 | h1
      · cases h1
        simp [mapGet]
      · have hkmem : k ∈ List.map Prod.fst rest := List.mem_map_of_mem Prod.fst h1
        have hk : ¬ k₀ = k := fun heq => hnd.1 (heq ▸ hkmem)
        simp only [mapGet, if_neg hk]
        exact ih (by simpa [mapKeys] using hnd.2) h1

theorem mapGet_mapDelete_ne (m : SessionMap) (k key : String) (h : key ≠ k) :
    mapGet (mapDelete m k) key = mapGet m key := by
  induction m with
  | nil => simp [mapDelete]
  | cons e rest ih =>
      obtain ⟨k₀, w₀⟩ := e
      by_cases h0 : k₀ = k
      · subst h0
        simp [mapDelete, mapGet, Ne.symm h]
      · simp only [mapDelete, if_neg h0, mapGet]
        by_cases h1 : k₀ = key
        · simp [h1]
        · simp [h1, ih]

theorem mapGet_mapDelete_self (m : SessionMap) (k : String)
    (hnd : (mapKeys m).Nodup) : mapGet (mapDelete m k) k = none := by
  induction m with
  | nil => simp [mapDelete, mapGet]
  | cons e rest ih =>
      obtain ⟨k₀, w₀⟩ := e
      simp only [mapKeys, List.map_cons, List.nodup_cons] at hnd
      by_cases h0 : k₀ = k
      · subst h0
        simp only [mapDelete, if_pos rfl]
        exact (mapGet_eq_none_iff rest k₀).mpr (by simpa [mapKeys] using hnd.1)
      · simp only [mapDelete, if_neg h0, mapGet, if_neg h0]
        exact ih (by simpa [mapKeys] using hnd.2)

theorem mapKeys_mapDelete_sublist (m : SessionMap) (k : String) :
    (mapKeys (mapDelete m k)).Sublist (mapKeys m) := by
  induction m with
  | nil => simp [mapDelete, mapKeys]
  | cons e rest ih =>
      obtain ⟨k₀, w₀⟩ := e
      by_cases h0 : k₀ = k
      · subst h0
        simp only [mapDelete, if_pos rfl, mapKeys, List.map_cons]
        exact List.Sublist.cons _ (List.Sublist.refl _)
      · simp only [mapDelete, if_neg h0, mapKeys, List.map_cons]
        exact List.Sublist.cons₂ _ (by simpa [mapKeys] using ih)

theorem nodup_mapKeys_mapDelete (m : SessionMap) (k : String)
    (hnd : (mapKeys m).Nodup) : (mapKeys (mapDelete m k)).Nodup :=
  (mapKeys_mapDelete_sublist m k).nodup hnd

theorem foldl_mapDelete_get (ids : List String) (m : SessionMap) (key : String)
    (hnd : (mapKeys m).Nodup) :
    mapGet (ids.foldl mapDelete m) key =
      if key ∈ ids then none else mapGet m key := by
  induction ids generalizing m with
  | nil => simp
  | cons id rest ih =>
      simp only [List.foldl_cons]
      rw [ih (mapDelete m id) (nodup_mapKeys_mapDelete m id hnd)]
      by_cases h1 : key ∈ rest
      · simp [h1, List.mem_cons]
      · by_cases h2 : key = id
        · subst h2
          simp [h1, mapGet_mapDelete_self m key hnd]
        · simp [h1, h2, mapGet_mapDelete_ne m id key h2]

theorem cleanup_get (now : Nat) (m : SessionMap) (key : String)
    (hnd : (mapKeys m).Nodup) :
    mapGet (cleanupExpiredSessions now m) key =
      match mapGet m key with
      | some sd => if SESSION_TIMEOUT_MS < now - sd.lastAccess then none else some sd
      | none => none := by
  unfold cleanupExpiredSessions
  rw [foldl_mapDelete_get _ _ _ hnd]
  cases hm : mapGet m key with
  | none =>
      have hnot : key ∉ (m.filter
          (fun e => decide (SESSION_TIMEOUT_MS < now - e.2.lastAccess))).map
          (fun e => e.1) := by
        intro hmem
        obtain ⟨e, he, hek⟩ := List.mem_map.mp hmem
        have hem : e ∈ m := (List.mem_filter.mp he).1
        have : key ∈ mapKeys m := by
          simpa [mapKeys, hek] using List.mem_map_of_mem Prod.fst hem
        exact ((mapGet_eq_none_iff m key).mp hm) this
      simp [hnot]
  | some sd =>
      by_cases hexp : SESSION_TIMEOUT_MS < now - sd.lastAccess
      · have hmem : key ∈ (m.filter
            (fun e => decide (SESSION_TIMEOUT_MS < now - e.2.lastAccess))).map
            (fun e => e.1) := by
          refine List.mem_map.mpr ⟨(key, sd), ?_, rfl⟩
          exact List.mem_filter.mpr ⟨mapGet_some_mem m key sd hm, by simpa using hexp⟩
        simp [hmem, hexp]
      · have hnot : key ∉ (m.filter
            (fun e => decide (SESSION_TIMEOUT_MS < now - e.2.lastAccess))).map
            (fun e => e.1) := by
          intro hmem
          obtain ⟨e, he, hek⟩ := List.mem_map.mp hmem
          obtain ⟨hem, hpe⟩ := List.mem_filter.mp he
          obtain ⟨k₁, sd₁⟩ := e
          change k₁ = key at hek
          have hg : mapGet m k₁ = some sd₁ := mem_mapGet_of_nodup m k₁ sd₁ hnd hem
          rw [hek, hm] at hg
          cases hg
          exact hexp (by simpa using hpe)
        simp [hnot, hexp, hm]

/-! ### Shared concrete values used by witnesses -/

/-- A concrete agent identifier in UUID shape. -/
def uuidLiteral : List Char := "0f0e0d0c-aaaa-bbbb-cccc-112233445566".data

/-- A concrete UUID-validity predicate accepting exactly `uuidLiteral`. -/
def isUuidWitness : List Char → Bool := fun t => decide (t = uuidLiteral)

/-- A concrete well-formed Authorization header carrying `uuidLiteral`. -/
def bearerHeader : List Char := "Bearer 0f0e0d0c-aaaa-bbbb-cccc-112233445566".data

/-! ### Claim C7: result normalization -/

/-- C7: the result-shape normalization of the router is idempotent, always
produces an array of content blocks, acts as the identity on content that is
already an array, and wraps any non-array value as a one-element array
holding a single text block with the JSON serialization of the value. -/
theorem normalizeContent_spec (c : Json) :
    normalizeContent (normalizeContent c) = normalizeContent c ∧
    isJsonArray (normalizeContent c) = true ∧
    (isJsonArray c = true → normalizeContent c = c) ∧
    (isJsonArray c = false → normalizeContent c = Json.arr [textBlock c]) := by
  cases c <;> simp [normalizeContent, isJsonArray]

/-- Witness for C7 at one array content value and one scalar content
value. -/
theorem normalizeContent_spec_witness :
    normalizeContent (Json.arr [Json.str "block"]) = Json.arr [Json.str "block"] ∧
    normalizeContent (Json.str "scalar") = Json.arr [textBlock (Json.str "scalar")] :=
  ⟨(normalizeContent_spec (Json.arr [Json.str "block"])).2.2.1 rfl,
   (normalizeContent_spec (Json.str "scalar")).2.2.2 rfl⟩

/-! ### Claim C8: Anthropic adapter extraction -/

/-- C8: for every vendor response content list, `getToolCalls` is an
append-homomorphism that drops text blocks and maps each tool-use block to
exactly one canonical `{id, name, arguments}` call, preserving block order;
an absent input maps to the empty mapping, never to an absent value, and
the number of calls equals the number of tool-use blocks, with zero blocks
yielding the empty list. -/
theorem getToolCalls_spec :
    (∀ xs ys, getToolCalls (xs ++ ys) = getToolCalls xs ++ getToolCalls ys) ∧
    (∀ t, getToolCalls [AnthropicContentBlock.text t] = []) ∧
    (∀ id name input, getToolCalls [AnthropicContentBlock.toolUse id name input] =
      [{ id := id, name := name, arguments := input.getD (Json.obj []) }]) ∧
    (∀ id name, getToolCalls [AnthropicContentBlock.toolUse id name none] =
      [{ id := id, name := name, arguments := Json.obj [] }]) ∧
    (∀ blocks, (getToolCalls blocks).length = blocks.countP isToolUseBlock) := by
  refine ⟨?_, fun t => rfl, fun id name input => rfl, fun id name => rfl, ?_⟩
  · intro xs ys
    induction xs with
    | nil => simp [getToolCalls]
    | cons b rest ih => cases b <;> simp [getToolCalls, ih]
  · intro blocks
    induction blocks with
    | nil => simp [getToolCalls]
    | cons b rest ih =>
        cases b <;> simp [getToolCalls, isToolUseBlock, List.countP_cons, ih]

/-! ### Claim C9: builtin tools execute in-process -/

/-- C9: a `tools/call` whose tool name starts with the host-builtin
namespace test value is executed by the builtin executor with the acting
agent identity and its response is returned directly; no canonical tool
call is constructed and the downstream client is never invoked. -/
theorem archestra_tool_executed_in_process
    (executeArchestraTool : String → Option Json → String → McpToolResponse)
    (mcpExecuteToolCall : CommonToolCall → String → CommonToolResult)
    (agentId genCallId name : String) (args : Option Json)
    (h : strStartsWith name archestraToolPrefix = true) :
    callToolHandler executeArchestraTool mcpExecuteToolCall agentId genCallId name args =
      (Except.ok (executeArchestraTool name args agentId),
        [RouterEffect.builtinExec name]) := by
  simp [callToolHandler, h]

/-- Builtin executor used by the C9 witness. -/
def witnessBuiltinExec : String → Option Json → String → McpToolResponse :=
  fun name _ agentId => { content := Json.str (name ++ "@" ++ agentId), isError := false }

/-- Downstream executor used by the C9 witness. -/
def witnessDownstreamExec : CommonToolCall → String → CommonToolResult :=
  fun _ _ => { content := Json.null, isError := false, error := none }

/-- Witness for C9 at the builtin tool name `archestra__whoami`. -/
theorem archestra_tool_executed_in_process_witness :
    callToolHandler witnessBuiltinExec witnessDownstreamExec "agent-7" "call-1"
        "archestra__whoami" none =
      (Except.ok (witnessBuiltinExec "archestra__whoami" none "agent-7"),
        [RouterEffect.builtinExec "archestra__whoami"]) :=
  archestra_tool_executed_in_process witnessBuiltinExec witnessDownstreamExec
    "agent-7" "call-1" "archestra__whoami" none (by decide)

/-! ### Claim C2: provider-level failures at the router boundary -/

/-- Downstream executor used in the C2 analysis: always reports a
provider-level failure. -/
def failingMcpExec : CommonToolCall → String → CommonToolResult :=
  fun _ _ => { content := Json.str "ignored", isError := true, error := some "provider failed" }

/-- Builtin executor used in the C2 analysis. -/
def noopBuiltinExec : String → Option Json → String → McpToolResponse :=
  fun _ _ _ => { content := Json.arr [], isError := false }

/-- C2 counterexample: a `tools/call` on a non-builtin tool that reaches the
downstream provider (the downstream-execution effect is in the trace) and
whose provider result has `isError` true is answered with a JSON-RPC level
error of code `-32603`, not with a canonical `{isError: true}` result inside
a successful protocol response. -/
theorem provider_failure_counterexample :
    (callToolHandler noopBuiltinExec failingMcpExec "agent-1" "call-1"
        "github__list_issues" none).1 =
      Except.error { code := -32603, message := "provider failed", data := none } ∧
    (callToolHandler noopBuiltinExec failingMcpExec "agent-1" "call-1"
        "github__list_issues" none).2 =
      [RouterEffect.downstreamExec
        { id := "call-1", name := "github__list_issues", arguments := Json.obj [] }] := by
  constructor <;> rfl

/-- C2 (amended): for every `tools/call` on a non-builtin tool, a
provider-level failure (the provider result has `isError` true) is raised
past the router boundary as a JSON-RPC level error with code `-32603`
carrying the provider error message (with `Tool execution failed` standing
in for an absent or empty message); it is never returned as a canonical
result, although the downstream provider was reached. -/
theorem provider_failure_raises_jsonrpc_error
    (executeArchestraTool : String → Option Json → String → McpToolResponse)
    (mcpExecuteToolCall : CommonToolCall → String → CommonToolResult)
    (agentId genCallId name : String) (args : Option Json)
    (hname : strStartsWith name archestraToolPrefix = false)
    (herr : (mcpExecuteToolCall
      { id := genCallId, name := name, arguments := args.getD (Json.obj []) }
      agentId).isError = true) :
    callToolHandler executeArchestraTool mcpExecuteToolCall agentId genCallId name args =
      (Except.error
        { code := -32603,
          message := jsStringOr
            (mcpExecuteToolCall
              { id := genCallId, name := name, arguments := args.getD (Json.obj []) }
              agentId).error "Tool execution failed",
          data := none },
        [RouterEffect.downstreamExec
          { id := genCallId, name := name, arguments := args.getD (Json.obj []) }]) := by
  simp [callToolHandler, hname, herr]

/-- Witness for C2 at a concrete failing downstream call. -/
theorem provider_failure_raises_jsonrpc_error_witness :
    callToolHandler noopBuiltinExec failingMcpExec "agent-1" "call-2" "github__issue" none =
      (Except.error
        { code := -32603,
          message := jsStringOr
            (failingMcpExec
              { id := "call-2", name := "github__issue", arguments := Json.obj [] }
              "agent-1").error "Tool execution failed",
          data := none },
        [RouterEffect.downstreamExec
          { id := "call-2", name := "github__issue", arguments := Json.obj [] }]) :=
  provider_failure_raises_jsonrpc_error noopBuiltinExec failingMcpExec
    "agent-1" "call-2" "github__issue" none (by decide) rfl

/-! ### Claim C6: unauthorized requests perform no session work -/

/-- C6: when the Authorization header is absent or does not carry a
well-formed agent identifier as bearer token, the POST handler answers 401
with a JSON-RPC error envelope of code `-32000`, the session map is left
exactly as it was, no session event occurs, and the GET handler answers 401
with an error object. -/
theorem unauthorized_request_no_session_work
    (isUuid : List Char → Bool) (authHeader : Option (List Char))
    (sessionId : Option String) (method : String) (now : Nat)
    (genSid : String) (freshServer freshTransport : Nat) (st : SessionMap)
    (h : extractAgentIdFromAuth isUuid authHeader = none) :
    (handlePost isUuid authHeader sessionId method now genSid freshServer
      freshTransport st).status = 401 ∧
    (handlePost isUuid authHeader sessionId method now genSid freshServer
      freshTransport st).errorCode = some (-32000) ∧
    (handlePost isUuid authHeader sessionId method now genSid freshServer
      freshTransport st).sessions = st ∧
    (handlePost isUuid authHeader sessionId method now genSid freshServer
      freshTransport st).events = [] ∧
    (handleGet isUuid authHeader).status = 401 ∧
    (handleGet isUuid authHeader).error = some "Unauthorized" := by
  simp [handlePost, handleGet, h]

/-- Witness for C6 at a header whose scheme is not Bearer. -/
theorem unauthorized_request_no_session_work_witness :
    (handlePost isUuidWitness (some ("Token abc".data)) none "tools/list" 1000
      "session-1-a" 1 2 []).status = 401 ∧
    (handlePost isUuidWitness (some ("Token abc".data)) none "tools/list" 1000
      "session-1-a" 1 2 []).errorCode = some (-32000) ∧
    (handlePost isUuidWitness (some ("Token abc".data)) none "tools/list" 1000
      "session-1-a" 1 2 []).sessions = [] ∧
    (handlePost isUuidWitness (some ("Token abc".data)) none "tools/list" 1000
      "session-1-a" 1 2 []).events = [] ∧
    (handleGet isUuidWitness (some ("Token abc".data))).status = 401 ∧
    (handleGet isUuidWitness (some ("Token abc".data))).error = some "Unauthorized" :=
  unauthorized_request_no_session_work isUuidWitness (some ("Token abc".data))
    none "tools/list" 1000 "session-1-a" 1 2 [] (by decide)

/-! ### Claim C1: non-initialize request with an unknown session identifier -/

/-- C1 (code evaluation): for a POST request with a valid agent bearer
token, a session identifier absent from the session map and a method other
than `initialize`, the handler under `src/unnamed/part_002` answers 400
with the JSON-RPC error envelope `code: -32000`, message `Bad Request:
Invalid or expired session`, leaves the session map unchanged, and creates
no session under the identifier — contradicting the auto-creation asserted
by the specification and by the repository test
`mcp-gateway.test.ts` (`non-initialize request with expired session creates
new session (not 400)`). -/
theorem non_initialize_unknown_session_returns_400
    (isUuid : List Char → Bool) (authHeader : Option (List Char))
    (a : List Char) (sid : String) (method : String) (now : Nat)
    (genSid : String) (freshServer freshTransport : Nat) (st : SessionMap)
    (hauth : extractAgentIdFromAuth isUuid authHeader = some a)
    (hsid : mapGet st sid = none)
    (hmethod : method ≠ "initialize") :
    (handlePost isUuid authHeader (some sid) method now genSid freshServer
      freshTransport st).status = 400 ∧
    (handlePost isUuid authHeader (some sid) method now genSid freshServer
      freshTransport st).errorCode = some (-32000) ∧
    (handlePost isUuid authHeader (some sid) method now genSid freshServer
      freshTransport st).errorMessage =
      some "Bad Request: Invalid or expired session" ∧
    (handlePost isUuid authHeader (some sid) method now genSid freshServer
      freshTransport st).sessions = st ∧
    mapGet (handlePost isUuid authHeader (some sid) method now genSid freshServer
      freshTransport st).sessions sid = none := by
  simp [handlePost, hauth, hsid, hmethod, invalidSessionOutcome]

/-- Witness for C1 at a concrete authorized `tools/list` request whose
session identifier is not in the (empty) session map. -/
theorem non_initialize_unknown_session_returns_400_witness :
    (handlePost isUuidWitness (some bearerHeader) (some "session-1-dead")
      "tools/list" 1000 "session-2-b" 1 2 []).status = 400 ∧
    (handlePost isUuidWitness (some bearerHeader) (some "session-1-dead")
      "tools/list" 1000 "session-2-b" 1 2 []).errorCode = some (-32000) ∧
    (handlePost isUuidWitness (some bearerHeader) (some "session-1-dead")
      "tools/list" 1000 "session-2-b" 1 2 []).errorMessage =
      some "Bad Request: Invalid or expired session" ∧
    (handlePost isUuidWitness (some bearerHeader) (some "session-1-dead")
      "tools/list" 1000 "session-2-b" 1 2 []).sessions = [] ∧
    mapGet (handlePost isUuidWitness (some bearerHeader) (some "session-1-dead")
      "tools/list" 1000 "session-2-b" 1 2 []).sessions "session-1-dead" = none :=
  non_initialize_unknown_session_returns_400 isUuidWitness (some bearerHeader)
    uuidLiteral "session-1-dead" "tools/list" 1000 "session-2-b" 1 2 []
    (by decide) (by decide) (by decide)

/-! ### Claim C4: session stored before the request is handled -/

/-- C4: when an `initialize` request creates a new session (no live session
for the supplied identifier, or no identifier at all), the session data is
stored in the map under the effective identifier strictly before the
request body is handed to the transport (the store event precedes the
handle event in the trace, and the stored entry carries the fresh server,
fresh transport and current time); consequently any closely-following
request carrying the same identifier finds the session present and is
served with status 200 by the same pair. -/
theorem initialize_stores_session_before_handling
    (isUuid : List Char → Bool) (authHeader : Option (List Char)) (a : List Char)
    (sessionId : Option String) (now : Nat) (genSid : String)
    (freshServer freshTransport : Nat) (st : SessionMap)
    (hauth : extractAgentIdFromAuth isUuid authHeader = some a)
    (hmiss : ∀ sid, sessionId = some sid → mapGet st sid = none) :
    (handlePost isUuid authHeader sessionId "initialize" now genSid freshServer
      freshTransport st).events =
      [GatewayEvent.sessionStore (sessionId.getD genSid),
       GatewayEvent.transportHandle] ∧
    mapGet (handlePost isUuid authHeader sessionId "initialize" now genSid
      freshServer freshTransport st).sessions (sessionId.getD genSid) =
      some { server := freshServer, transport := freshTransport, lastAccess := now } ∧
    (∀ (method₂ : String) (now₂ : Nat) (genSid₂ : String) (fs₂ ft₂ : Nat),
      (handlePost isUuid authHeader (some (sessionId.getD genSid)) method₂ now₂
        genSid₂ fs₂ ft₂
        (handlePost isUuid authHeader sessionId "initialize" now genSid
          freshServer freshTransport st).sessions).status = 200 ∧
      (handlePost isUuid authHeader (some (sessionId.getD genSid)) method₂ now₂
        genSid₂ fs₂ ft₂
        (handlePost isUuid authHeader sessionId "initialize" now genSid
          freshServer freshTransport st).sessions).usedServer = some freshServer ∧
      (handlePost isUuid authHeader (some (sessionId.getD genSid)) method₂ now₂
        genSid₂ fs₂ ft₂
        (handlePost isUuid authHeader sessionId "initialize" now genSid
          freshServer freshTransport st).sessions).usedTransport =
        some freshTransport) := by
  cases sessionId with
  | none =>
      have hset := mapGet_mapSet_self st genSid
        { server := freshServer, transport := freshTransport, lastAccess := now }
      refine ⟨?_, ?_, ?_⟩
      · simp [handlePost, hauth, initializeBranch]
      · simp [handlePost, hauth, initializeBranch, hset]
      · intro method₂ now₂ genSid₂ fs₂ ft₂
        refine ⟨?_, ?_, ?_⟩ <;> simp [handlePost, hauth, initializeBranch, hset]
  | some sid =>
      have hm := hmiss sid rfl
      have hset := mapGet_mapSet_self st sid
        { server := freshServer, transport := freshTransport, lastAccess := now }
      refine ⟨?_, ?_, ?_⟩
      · simp [handlePost, hauth, hm, initializeBranch]
      · simp [handlePost, hauth, hm, initializeBranch, hset]
      · intro method₂ now₂ genSid₂ fs₂ ft₂
        refine ⟨?_, ?_, ?_⟩ <;> simp [handlePost, hauth, hm, initializeBranch, hset]

/-- Witness for C4 at a concrete initialize request reusing an expired
identifier, followed by a `tools/list` on the same identifier. -/
theorem initialize_stores_session_before_handling_witness :
    (handlePost isUuidWitness (some bearerHeader) (some "session-old")
      "initialize" 1000 "session-2-b" 3 4 []).events =
      [GatewayEvent.sessionStore "session-old", GatewayEvent.transportHandle] ∧
    mapGet (handlePost isUuidWitness (some bearerHeader) (some "session-old")
      "initialize" 1000 "session-2-b" 3 4 []).sessions "session-old" =
      some { server := 3, transport := 4, lastAccess := 1000 } ∧
    (handlePost isUuidWitness (some bearerHeader) (some "session-old")
      "tools/list" 2000 "session-3-c" 7 8
      (handlePost isUuidWitness (some bearerHeader) (some "session-old")
        "initialize" 1000 "session-2-b" 3 4 []).sessions).status = 200 ∧
    (handlePost isUuidWitness (some bearerHeader) (some "session-old")
      "tools/list" 2000 "session-3-c" 7 8
      (handlePost isUuidWitness (some bearerHeader) (some "session-old")
        "initialize" 1000 "session-2-b" 3 4 []).sessions).usedServer = some 3 := by
  have h := initialize_stores_session_before_handling isUuidWitness
    (some bearerHeader) uuidLiteral (some "session-old") 1000 "session-2-b" 3 4 []
    (by decide) (by intro sid hs; injection hs with h; subst h; rfl)
  have h3 := h.2.2 "tools/list" 2000 "session-3-c" 7 8
  exact ⟨h.1, h.2.1, h3.1, h3.2.1⟩

/-! ### Claim C3: a live session always maps to the same pair -/

theorem stepPost_preserves_pair (isUuid : List Char → Bool) (st : SessionMap)
    (sid : String) (sd : SessionData) (r : PostReq)
    (hsd : mapGet st sid = some sd) (hgen : r.genSid ≠ sid) :
    ∃ la, mapGet (stepPost isUuid st r) sid =
      some { server := sd.server, transport := sd.transport, lastAccess := la } := by
  unfold stepPost handlePost
  cases hex : extractAgentIdFromAuth isUuid r.authHeader with
  | none =>
      simp only [hex]
      exact ⟨sd.lastAccess, by simpa using hsd⟩
  | some a =>
      simp only [hex]
      cases hsid : r.sessionId with
      | none =>
          by_cases hm : r.method = "initialize"
          · rw [if_pos hm]
            simp only [initializeBranch]
            refine ⟨sd.lastAccess, ?_⟩
            rw [mapGet_mapSet_ne st r.genSid sid _ (Ne.symm hgen)]
            simpa using hsd
          · rw [if_neg hm]
            simp only [invalidSessionOutcome]
            exact ⟨sd.lastAccess, by simpa using hsd⟩
      | some s' =>
          by_cases hss : s' = sid
          · subst hss
            simp only [hsd]
            exact ⟨r.now, mapGet_mapSet_self st s' _⟩
          · cases hm2 : mapGet st s' with
            | some sd2 =>
                simp only [hm2]
                refine ⟨sd.lastAccess, ?_⟩
                rw [mapGet_mapSet_ne st s' sid _ (Ne.symm hss)]
                simpa using hsd
            | none =>
                simp only [hm2]
                by_cases hm : r.method = "initialize"
                · rw [if_pos hm]
                  simp only [initializeBranch]
                  refine ⟨sd.lastAccess, ?_⟩
                  rw [mapGet_mapSet_ne st s' sid _ (Ne.symm hss)]
                  simpa using hsd
                · rw [if_neg hm]
                  simp only [invalidSessionOutcome]
                  exact ⟨sd.lastAccess, by simpa using hsd⟩

theorem runPosts_preserves_pair (isUuid : List Char → Bool) (reqs : List PostReq)
    (st : SessionMap) (sid : String) (sd : SessionData)
    (hsd : mapGet st sid = some sd) (hgen : ∀ r ∈ reqs, r.genSid ≠ sid) :
    ∃ la, mapGet (runPosts isUuid reqs st) sid =
      some { server := sd.server, transport := sd.transport, lastAccess := la } := by
  induction reqs generalizing st sd with
  | nil => exact ⟨sd.lastAccess, by simpa [runPosts] using hsd⟩
  | cons r rest ih =>
      obtain ⟨la, hla⟩ := stepPost_preserves_pair isUuid st sid sd r hsd
        (hgen r (List.mem_cons_self r rest))
      obtain ⟨la₂, hla₂⟩ := ih (stepPost isUuid st r)
        { server := sd.server, transport := sd.transport, lastAccess := la } hla
        (fun r' hr' => hgen r' (List.mem_cons_of_mem r hr'))
      exact ⟨la₂, by simpa [runPosts] using hla₂⟩

/-- C3: a session identifier bound to a live session is always served by
the same protocol-server and transport objects.  Any single authorized
request carrying the identifier (including `tools/list` and a
re-`initialize`) is served with status 200 by the stored pair, refreshes
only the last-access timestamp, creates no session and leaves every other
entry unchanged; and across any sequence of requests (whose generated
fresh identifiers differ from it), the identifier keeps mapping to the
same server/transport pair. -/
theorem live_session_reuses_server_transport
    (isUuid : List Char → Bool) (st : SessionMap) (sid : String) (sd : SessionData)
    (hsd : mapGet st sid = some sd) :
    (∀ (authHeader : Option (List Char)) (a : List Char) (method : String)
        (now : Nat) (genSid : String) (fs ft : Nat),
      extractAgentIdFromAuth isUuid authHeader = some a →
      (handlePost isUuid authHeader (some sid) method now genSid fs ft st).status = 200 ∧
      (handlePost isUuid authHeader (some sid) method now genSid fs ft st).usedServer =
        some sd.server ∧
      (handlePost isUuid authHeader (some sid) method now genSid fs ft st).usedTransport =
        some sd.transport ∧
      mapGet (handlePost isUuid authHeader (some sid) method now genSid fs ft st).sessions
        sid = some { server := sd.server, transport := sd.transport, lastAccess := now } ∧
      (handlePost isUuid authHeader (some sid) method now genSid fs ft st).sessions.length =
        st.length ∧
      (∀ k, k ≠ sid →
        mapGet (handlePost isUuid authHeader (some sid) method now genSid fs ft st).sessions k =
          mapGet st k)) ∧
    (∀ reqs : List PostReq, (∀ r ∈ reqs, r.genSid ≠ sid) →
      ∃ la, mapGet (runPosts isUuid reqs st) sid =
        some { server := sd.server, transport := sd.transport, lastAccess := la }) := by
  constructor
  · intro authHeader a method now genSid fs ft hauth
    refine ⟨?_, ?_, ?_, ?_, ?_, ?_⟩
    · simp [handlePost, hauth, hsd]
    · simp [handlePost, hauth, hsd]
    · simp [handlePost, hauth, hsd]
    · simp [handlePost, hauth, hsd, mapGet_mapSet_self]
    · simp only [handlePost, hauth, hsd]
      exact mapSet_length_of_get_some st sid _ sd hsd
    · intro k hk
      simp only [handlePost, hauth, hsd]
      exact mapGet_mapSet_ne st sid k _ hk
  · intro reqs hgen
    exact runPosts_preserves_pair isUuid reqs st sid sd hsd hgen

/-- Witness for C3 at a concrete live session, a concrete `tools/list`
request and a concrete two-request sequence. -/
theorem live_session_reuses_server_transport_witness :
    (handlePost isUuidWitness (some bearerHeader) (some "sess-1") "tools/list"
      2000 "session-2-b" 9 10 [("sess-1", ⟨5, 6, 100⟩)]).status = 200 ∧
    (handlePost isUuidWitness (some bearerHeader) (some "sess-1") "tools/list"
      2000 "session-2-b" 9 10 [("sess-1", ⟨5, 6, 100⟩)]).usedServer = some 5 ∧
    (handlePost isUuidWitness (some bearerHeader) (some "sess-1") "tools/list"
      2000 "session-2-b" 9 10 [("sess-1", ⟨5, 6, 100⟩)]).usedTransport = some 6 ∧
    (∃ la, mapGet (runPosts isUuidWitness
      [{ authHeader := some bearerHeader, sessionId := some "sess-1",
         method := "tools/list", now := 3000, genSid := "session-3-c",
         freshServer := 11, freshTransport := 12 },
       { authHeader := some bearerHeader, sessionId := some "sess-1",
         method := "initialize", now := 4000, genSid := "session-4-d",
         freshServer := 13, freshTransport := 14 }]
      [("sess-1", ⟨5, 6, 100⟩)]) "sess-1" =
      some { server := 5, transport := 6, lastAccess := la }) := by
  have h := live_session_reuses_server_transport isUuidWitness
    [("sess-1", ⟨5, 6, 100⟩)] "sess-1" ⟨5, 6, 100⟩ (by decide)
  have h1 := h.1 (some bearerHeader) uuidLiteral "tools/list" 2000 "session-2-b"
    9 10 (by decide)
  refine ⟨h1.1, h1.2.1, h1.2.2.1, ?_⟩
  exact h.2 _ (by decide)

/-! ### Claim C5: the expired-session sweep -/

theorem mapHas_mapSet_of_has (m : SessionMap) (k sid : String) (v : SessionData)
    (h : mapHas m sid = true) : mapHas (mapSet m k v) sid = true := by
  by_cases hk : sid = k
  · subst hk
    simp [mapHas, mapGet_mapSet_self]
  · simpa [mapHas, mapGet_mapSet_ne m k sid v hk] using h

theorem handlePost_preserves_has (isUuid : List Char → Bool)
    (authHeader : Option (List Char)) (sessionId : Option String)
    (method : String) (now : Nat) (genSid : String)
    (freshServer freshTransport : Nat) (st : SessionMap) (sid : String)
    (h : mapHas st sid = true) :
    mapHas (handlePost isUuid authHeader sessionId method now genSid
      freshServer freshTransport st).sessions sid = true := by
  unfold handlePost
  cases hex : extractAgentIdFromAuth isUuid authHeader with
  | none => simpa using h
  | some a =>
      cases sessionId with
      | none =>
          by_cases hm : method = "initialize"
          · simp only [hm, if_pos rfl, initializeBranch]
            exact mapHas_mapSet_of_has st genSid sid _ h
          · simp only [if_neg hm, invalidSessionOutcome]
            simpa using h
      | some s' =>
          cases hm2 : mapGet st s' with
          | some sd2 =>
              simp only [hm2]
              exact mapHas_mapSet_of_has st s' sid _ h
          | none =>
              simp only [hm2]
              by_cases hm : method = "initialize"
              · simp only [hm, if_pos rfl, initializeBranch]
                exact mapHas_mapSet_of_has st s' sid _ h
              · simp only [if_neg hm, invalidSessionOutcome]
                simpa using h

/-- C5: one run of the expired-session sweep removes exactly the sessions
whose last-access age strictly exceeds the fixed 30-minute timeout and
returns every other entry unchanged with its stored data; the timeout is
30 minutes, the sweep cadence is the independent 5-minute
`setInterval` period, and request handling itself never removes a
session from the map. -/
theorem cleanup_expired_sessions_spec :
    (∀ (now : Nat) (m : SessionMap) (sid : String), (mapKeys m).Nodup →
      mapGet (cleanupExpiredSessions now m) sid =
        match mapGet m sid with
        | some sd =>
            if SESSION_TIMEOUT_MS < now - sd.lastAccess then none else some sd
        | none => none) ∧
    SESSION_TIMEOUT_MS = 1800000 ∧
    CLEANUP_INTERVAL_MS = 300000 ∧
    (∀ (isUuid : List Char → Bool) (authHeader : Option (List Char))
        (sessionId : Option String) (method : String) (now : Nat)
        (genSid : String) (freshServer freshTransport : Nat)
        (st : SessionMap) (sid : String),
      mapHas st sid = true →
      mapHas (handlePost isUuid authHeader sessionId method now genSid
        freshServer freshTransport st).sessions sid = true) := by
  refine ⟨?_, rfl, rfl, ?_⟩
  · intro now m sid hnd
    exact cleanup_get now m sid hnd
  · intro isUuid authHeader sessionId method now genSid fs ft st sid h
    exact handlePost_preserves_has isUuid authHeader sessionId method now genSid
      fs ft st sid h

/-- Witness for C5 at a concrete two-session map, one session expired and
one live, and a concrete request on a present identifier. -/
theorem cleanup_expired_sessions_spec_witness :
    mapGet (cleanupExpiredSessions 2000000
      [("stale", ⟨1, 2, 0⟩), ("live", ⟨3, 4, 500000⟩)]) "stale" = none ∧
    mapGet (cleanupExpiredSessions 2000000
      [("stale", ⟨1, 2, 0⟩), ("live", ⟨3, 4, 500000⟩)]) "live" =
      some ⟨3, 4, 500000⟩ ∧
    mapHas (handlePost isUuidWitness (some bearerHeader) (some "live")
      "tools/list" 2000000 "session-9-z" 7 8
      [("live", ⟨3, 4, 500000⟩)]).sessions "live" = true := by
  have h1 := cleanup_expired_sessions_spec.1 2000000
    [("stale", ⟨1, 2, 0⟩), ("live", ⟨3, 4, 500000⟩)] "stale" (by decide)
  have h2 := cleanup_expired_sessions_spec.1 2000000
    [("stale", ⟨1, 2, 0⟩), ("live", ⟨3, 4, 500000⟩)] "live" (by decide)
  have h3 := cleanup_expired_sessions_spec.2.2.2 isUuidWitness
    (some bearerHeader) (some "live") "tools/list" 2000000 "session-9-z" 7 8
    [("live", ⟨3, 4, 500000⟩)] "live" (by decide)
  refine ⟨?_, ?_, h3⟩
  · simpa using h1
  · simpa using h2

/-! ### Claim C10: characterization of `extractAgentIdFromAuth` -/

theorem mem_takeWhile_sat (p : Char → Bool) (l : List Char) :
    ∀ c ∈ l.takeWhile p, p c = true := by
  induction l with
  | nil => intro c hc; simp at hc
  | cons c' t ih =>
      intro c hc
      by_cases hp : p c' = true
      · rw [List.takeWhile_cons_of_pos hp] at hc
        rcases List.mem_cons.mp hc with h | h
        · exact h ▸ hp
        · exact ih c h
      · rw [List.takeWhile_cons_of_neg hp] at hc
        simp at hc

theorem takeWhile_dropWhile_append (p : Char → Bool) (ws a : List Char)
    (hws : ∀ c ∈ ws, p c = true) (ha : a.takeWhile p = []) :
    (ws ++ a).takeWhile p = ws ∧ (ws ++ a).dropWhile p = a := by
  induction ws with
  | nil =>
      refine ⟨by simpa using ha, ?_⟩
      have h1 := List.takeWhile_append_dropWhile (p := p) (l := a)
      rw [ha] at h1
      simpa using h1
  | cons c ws ih =>
      have hc : p c = true := hws c (List.mem_cons_self c ws)
      have ih' := ih (fun c' hc' => hws c' (List.mem_cons_of_mem _ hc'))
      constructor
      · rw [List.cons_append, List.takeWhile_cons_of_pos hc, ih'.1]
      · rw [List.cons_append, List.dropWhile_cons_of_pos hc, ih'.2]

theorem lineTerminator_whitespace (c : Char) (h : lineTerminator c = true) :
    jsWhitespace c = true := by
  simp only [lineTerminator, Bool.or_eq_true, beq_iff_eq] at h
  rcases h with ((h | h) | h) | h
  · subst h; decide
  · subst h; decide
  · simp [jsWhitespace, h]
  · simp [jsWhitespace, h]

theorem matchBearerToken_some_shape (s tok : List Char)
    (h : matchBearerToken s = some tok)
    (hnonws : ∀ c ∈ tok, jsWhitespace c = false) :
    bearerCI (s.take 6) = true ∧
    (s.drop 6).takeWhile jsWhitespace ≠ [] ∧
    s.drop 6 = (s.drop 6).takeWhile jsWhitespace ++ tok := by
  unfold matchBearerToken at h
  by_cases hb : bearerCI (s.take 6) = true
  · rw [if_pos hb] at h
    simp only at h
    by_cases hws : (s.drop 6).takeWhile jsWhitespace = []
    · rw [if_pos hws] at h
      cases h
    · rw [if_neg hws] at h
      by_cases htok : (s.drop 6).dropWhile jsWhitespace = []
      · rw [if_pos htok] at h
        cases hgl : ((s.drop 6).takeWhile jsWhitespace).getLast? with
        | none =>
            rw [hgl] at h
            cases h
        | some c =>
            rw [hgl] at h
            simp only at h
            have hcmem : c ∈ (s.drop 6).takeWhile jsWhitespace := by
              obtain ⟨hne', heq⟩ :=
                List.mem_getLast?_eq_getLast (Option.mem_def.mpr hgl)
              rw [heq]
              exact List.getLast_mem hne'
            have hcw : jsWhitespace c = true :=
              mem_takeWhile_sat jsWhitespace (s.drop 6) c hcmem
            by_cases hcond :
                (2 ≤ ((s.drop 6).takeWhile jsWhitespace).length && !lineTerminator c) = true
            · rw [if_pos hcond] at h
              injection h with h'
              have : jsWhitespace c = false := by
                have := hnonws c (by rw [← h']; exact List.mem_singleton_self c)
                exact this
              rw [hcw] at this
              cases this
            · rw [if_neg hcond] at h
              cases h
      · rw [if_neg htok] at h
        by_cases hany : ((s.drop 6).dropWhile jsWhitespace).any lineTerminator = true
        · rw [if_pos hany] at h
          cases h
        · rw [if_neg hany] at h
          injection h with h'
          subst h'
          exact ⟨hb, hws,
            (List.takeWhile_append_dropWhile (p := jsWhitespace) (l := s.drop 6)).symm⟩
  · rw [if_neg hb] at h
    cases h

theorem matchBearerToken_append (scheme ws a : List Char)
    (hb : bearerCI scheme = true) (hws_ne : ws ≠ [])
    (hws : ∀ c ∈ ws, jsWhitespace c = true)
    (ha_ne : a ≠ []) (ha : ∀ c ∈ a, jsWhitespace c = false) :
    matchBearerToken (scheme ++ (ws ++ a)) = some a := by
  have hlen : scheme.length = 6 := by
    have h1 := congrArg List.length (of_decide_eq_true hb)
    rw [List.length_map] at h1
    exact h1.trans (by decide)
  have htake : (scheme ++ (ws ++ a)).take 6 = scheme := by
    rw [← hlen]
    exact List.take_left scheme (ws ++ a)
  have hdrop : (scheme ++ (ws ++ a)).drop 6 = ws ++ a := by
    rw [← hlen]
    exact List.drop_left scheme (ws ++ a)
  have hatw : a.takeWhile jsWhitespace = [] := by
    cases a with
    | nil => rfl
    | cons c t =>
        have hc := ha c (List.mem_cons_self c t)
        rw [List.takeWhile_cons_of_neg (by simp [hc])]
  obtain ⟨htw, hdw⟩ := takeWhile_dropWhile_append jsWhitespace ws a hws hatw
  have hany : (ws ++ a).dropWhile jsWhitespace = a := hdw
  have hanyf : ¬ a.any lineTerminator = true := by
    intro hx
    obtain ⟨c, hc, hct⟩ := List.any_eq_true.mp hx
    have := lineTerminator_whitespace c hct
    rw [ha c hc] at this
    cases this
  unfold matchBearerToken
  rw [htake, hdrop, if_pos hb]
  simp only
  rw [htw, hdw, if_neg hws_ne, if_neg ha_ne, if_neg hanyf]

/-- C10: for every UUID-validity predicate that accepts only nonempty
whitespace-free tokens, `extractAgentIdFromAuth` returns an agent
identifier exactly when the Authorization header is present and decomposes
as the scheme `Bearer` (matched case-insensitively), one or more
whitespace characters, and a token accepted by the UUID validation; on any
other header it returns none, so every authenticated agent identifier is a
syntactically valid UUID. -/
theorem extractAgentIdFromAuth_spec (isUuid : List Char → Bool)
    (hUuid : ∀ t, isUuid t = true → t ≠ [] ∧ ∀ c ∈ t, jsWhitespace c = false) :
    extractAgentIdFromAuth isUuid none = none ∧
    (∀ s a, extractAgentIdFromAuth isUuid (some s) = some a ↔
      ∃ scheme ws, s = scheme ++ (ws ++ a) ∧ bearerCI scheme = true ∧
        ws ≠ [] ∧ (∀ c ∈ ws, jsWhitespace c = true) ∧ isUuid a = true) := by
  refine ⟨rfl, ?_⟩
  intro s a
  constructor
  · intro h
    simp only [extractAgentIdFromAuth] at h
    cases hm : matchBearerToken s with
    | none =>
        rw [hm] at h
        cases h
    | some tok =>
        rw [hm] at h
        simp only at h
        by_cases hu : isUuid tok = true
        · rw [if_pos hu] at h
          injection h with h'
          subst h'
          obtain ⟨hne, hnonws⟩ := hUuid tok hu
          obtain ⟨hb, hws_ne, hsplit⟩ := matchBearerToken_some_shape s tok hm hnonws
          refine ⟨s.take 6, (s.drop 6).takeWhile jsWhitespace, ?_, hb, hws_ne, ?_, hu⟩
          · conv_lhs => rw [← List.take_append_drop 6 s, hsplit]
          · exact mem_takeWhile_sat jsWhitespace (s.drop 6)
        · rw [if_neg hu] at h
          cases h
  · rintro ⟨scheme, ws, hs, hb, hws_ne, hws, hu⟩
    subst hs
    have ha := hUuid a hu
    simp only [extractAgentIdFromAuth]
    rw [matchBearerToken_append scheme ws a hb hws_ne hws ha.1 ha.2]
    simp [hu]

/-- Witness for C10 at the concrete UUID predicate accepting exactly
`uuidLiteral`, at the absent header, and at a concrete well-formed
header. -/
theorem extractAgentIdFromAuth_spec_witness :
    extractAgentIdFromAuth isUuidWitness none = none ∧
    extractAgentIdFromAuth isUuidWitness (some bearerHeader) = some uuidLiteral := by
  have h := extractAgentIdFromAuth_spec isUuidWitness (by
    intro t ht
    have heq : t = uuidLiteral := of_decide_eq_true (by simpa [isUuidWitness] using ht)
    subst heq
    exact ⟨by decide, by decide⟩)
  refine ⟨h.1, ?_⟩
  exact (h.2 bearerHeader uuidLiteral).mpr
    ⟨"Bearer".data, [' '], by decide, by decide, by decide, by decide, by decide⟩
